import Mathlib

/- Verification of the Dzeck-ai agent backend.
   Shallow embedding of src/backend/main.py, src/backend/tool_executor.py and
   src/backend/memory_manager.py.  Strings are Lean `String`s; Python string
   primitives (strip, lower, startswith, in, find, split) are modelled over the
   underlying character lists. -/

/-- Whitespace as recognised by Python's `str.strip` and the regex class `\s`
(ASCII range, which covers all inputs appearing in the sources). -/
def isPySpace (c : Char) : Bool :=
  c = ' ' || c = '\t' || c = '\n' || c = '\r' || c = '\x0b' || c = '\x0c'

/-- The backquote character (used by the markdown fence handling). -/
def btick : Char := Char.ofNat 96

/-- The single-quote character. -/
def squote : Char := Char.ofNat 39

/-- Python `s.strip()`. -/
def pyStrip (s : String) : String :=
  String.mk (((s.data.dropWhile isPySpace).reverse.dropWhile isPySpace).reverse)

/-- Python `s.lower()` (ASCII). -/
def pyLower (s : String) : String := String.mk (s.data.map Char.toLower)

/-- Python `s.startswith(pre)`. -/
def pyStartswith (s pre : String) : Bool := List.isPrefixOf pre.data s.data

/-- Python `s.endswith(suf)`. -/
def pyEndswith (s suf : String) : Bool := List.isSuffixOf suf.data s.data

/-- Python `needle in hay` for strings. -/
def pyIn (needle hay : String) : Bool :=
  (List.range (hay.data.length + 1)).any fun i =>
    List.isPrefixOf needle.data (hay.data.drop i)

/-- Index of the first occurrence of `pat` in `hay` (Python `hay.find(pat)`
restricted to the found case). -/
def listFindSub (hay pat : List Char) : Option Nat :=
  (List.range (hay.length + 1)).find? fun i => List.isPrefixOf pat (hay.drop i)

/-- Python `s[:n]`. -/
def pyTake (s : String) (n : Nat) : String := String.mk (s.data.take n)

/-- Python `s[n:]`. -/
def pyDrop (s : String) (n : Nat) : String := String.mk (s.data.drop n)

/-- The regex word class `\w` (ASCII). -/
def isWordChar (c : Char) : Bool := c.isAlphanum || c = '_'

/-- JSON-style values, the shapes `json.loads` can return and the argument
values carried by parsed actions. JSON numbers are modelled as integers
(the sources only ever handle integral numerals). -/
inductive JVal where
  | str (s : String)
  | num (n : Int)
  | bool (b : Bool)
  | null
  | arr (elems : List JVal)
  | obj (fields : List (String × JVal))

/-- Assignment `d[k] = v` on a Python dict modelled as an ordered
association list with unique keys: replace in place or append. -/
def dictInsert (m : List (String × JVal)) (k : String) (v : JVal) :
    List (String × JVal) :=
  if m.any (fun p => p.1 = k) then m.map (fun p => if p.1 = k then (k, v) else p)
  else m ++ [(k, v)]

/-- Lookup `d.get(k)` on a dict modelled as an association list. -/
def objGet (m : List (String × JVal)) (k : String) : Option JVal :=
  (m.find? (fun p => p.1 = k)).map (fun p => p.2)

/-- Parser for a JSON string body after the opening quote, with the common
escapes (`\uXXXX` is not needed by the sources' inputs and is rejected). -/
def parseJStr : Nat → List Char → List Char → Option (String × List Char)
  | 0, _, _ => none
  | _, [], _ => none
  | f + 1, c :: rest, acc =>
    if c = '"' then some (String.mk acc.reverse, rest)
    else if c = '\\' then
      match rest with
      | [] => none
      | e :: r2 =>
        let esc : Option Char :=
          if e = '"' then some '"'
          else if e = '\\' then some '\\'
          else if e = '/' then some '/'
          else if e = 'n' then some '\n'
          else if e = 't' then some '\t'
          else if e = 'r' then some '\r'
          else if e = 'b' then some (Char.ofNat 8)
          else if e = 'f' then some (Char.ofNat 12)
          else none
        match esc with
        | some ch => parseJStr f r2 (ch :: acc)
        | none => none
    else parseJStr f rest (c :: acc)

/-- Leading run of decimal digits, as a number. -/
def parseJNat (l : List Char) : Option (Nat × List Char) :=
  let ds := l.takeWhile Char.isDigit
  if ds.isEmpty then none
  else some (ds.foldl (fun a c => a * 10 + (c.toNat - 48)) 0, l.drop ds.length)

/-- JSON whitespace between tokens. -/
def jsonWs (l : List Char) : List Char :=
  l.dropWhile fun c => c = ' ' || c = '\t' || c = '\n' || c = '\r'

mutual

/-- One JSON value (strict grammar of `json.loads`: in particular a trailing
comma before `}` or `]` is a parse error). -/
def parseJVal : Nat → List Char → Option (JVal × List Char)
  | 0, _ => none
  | f + 1, l =>
    match jsonWs l with
    | '{' :: rest =>
      match jsonWs rest with
      | '}' :: r2 => some (.obj [], r2)
      | _ => parseJMembers f rest []
    | '[' :: rest =>
      match jsonWs rest with
      | ']' :: r2 => some (.arr [], r2)
      | _ => parseJElems f rest []
    | '"' :: rest => (parseJStr (f + 1) rest []).map fun p => (.str p.1, p.2)
    | 't' :: 'r' :: 'u' :: 'e' :: rest => some (.bool true, rest)
    | 'f' :: 'a' :: 'l' :: 's' :: 'e' :: rest => some (.bool false, rest)
    | 'n' :: 'u' :: 'l' :: 'l' :: rest => some (.null, rest)
    | '-' :: rest => (parseJNat rest).map fun p => (.num (-(p.1 : Int)), p.2)
    | l2 => (parseJNat l2).map fun p => (.num (p.1 : Int), p.2)

/-- Members of a JSON object after `{` (at least one member). Duplicate keys
overwrite, as in a Python dict. -/
def parseJMembers : Nat → List Char → List (String × JVal) →
    Option (JVal × List Char)
  | 0, _, _ => none
  | f + 1, l, acc =>
    match jsonWs l with
    | '"' :: rest =>
      match parseJStr (f + 1) rest [] with
      | none => none
      | some (k, r2) =>
        match jsonWs r2 with
        | ':' :: r3 =>
          match parseJVal f r3 with
          | none => none
          | some (v, r4) =>
            let acc2 := dictInsert acc k v
            match jsonWs r4 with
            | ',' :: r5 => parseJMembers f r5 acc2
            | '}' :: r5 => some (.obj acc2, r5)
            | _ => none
        | _ => none
    | _ => none

/-- Elements of a JSON array after `[` (at least one element). -/
def parseJElems : Nat → List Char → List JVal → Option (JVal × List Char)
  | 0, _, _ => none
  | f + 1, l, acc =>
    match parseJVal f l with
    | none => none
    | some (v, r) =>
      match jsonWs r with
      | ',' :: r2 => parseJElems f r2 (acc ++ [v])
      | ']' :: r2 => some (.arr (acc ++ [v]), r2)
      | _ => none

end

/-- Python `json.loads`: parse one value and require only whitespace after. -/
def jsonLoads (s : String) : Option JVal :=
  match parseJVal (s.data.length + 1) s.data with
  | none => none
  | some (v, rest) => if (jsonWs rest).isEmpty then some v else none

/- ===== tool_executor.py ===== -/

/-- The base directory holding all task workspaces (tool_executor.py). -/
def BASE_WORKSPACE : String := "/tmp/agent_workspaces"

/-- The capability set, in the insertion order of `AVAILABLE_TOOLS`. -/
def toolNames : List String := ["web_search", "terminal", "file_editor", "finish"]

/-- The argument-alias tables `TOOL_ARG_MAP`. -/
def TOOL_ARG_MAP : List (String × List (String × String)) :=
  [("web_search",
    [("q", "query"), ("search", "query"), ("keyword", "query"),
     ("keywords", "query"), ("search_query", "query")]),
   ("terminal",
    [("cmd", "command"), ("shell", "command"), ("exec", "command"),
     ("run", "command")]),
   ("file_editor",
    [("file_path", "path"), ("filepath", "path"), ("filename", "path"),
     ("file", "path"), ("text", "content"), ("data", "content"),
     ("body", "content"), ("operation", "action"), ("mode", "action"),
     ("type", "action")]),
   ("finish",
    [("result", "answer"), ("response", "answer"), ("message", "answer"),
     ("output", "answer"), ("summary", "answer")])]

/-- `alias_map.get(key, default)` over one tool's alias table. -/
def aliasGet (amap : List (String × String)) (k : String) : Option String :=
  (amap.find? (fun p => p.1 = k)).map (fun p => p.2)

/-- The rebuild loop of `_normalize_args`: each key is passed through
(`cwd` untouched), aliases are rewritten to the canonical key, and the
result dict is built by assignment in iteration order. -/
def normLoop (amap : List (String × String)) :
    List (String × JVal) → List (String × JVal) → List (String × JVal)
  | acc, [] => acc
  | acc, (k, v) :: rest =>
    if k = "cwd" then normLoop amap (dictInsert acc "cwd" v) rest
    else normLoop amap (dictInsert acc ((aliasGet amap (pyLower k)).getD k) v) rest

/-- The alias-rewriting part of `_normalize_args` (after the `raw` special
case): look the tool up in `TOOL_ARG_MAP` and rewrite each key. -/
def normalizeAlias (action : String) (action_input : List (String × JVal)) :
    List (String × JVal) :=
  match (TOOL_ARG_MAP.find? (fun p => p.1 = action)).map (fun p => p.2) with
  | none => action_input
  | some amap => normLoop amap [] action_input

/-- `_normalize_args` from tool_executor.py: the single-`raw`-entry special
case maps the value onto the tool's primary argument (for three of the four
tools), otherwise keys are rewritten through the alias table. -/
def _normalize_args (action : String) (action_input : List (String × JVal)) :
    List (String × JVal) :=
  if action_input.any (fun p => p.1 = "raw") ∧ action_input.length = 1 then
    match (action_input.find? (fun p => p.1 = "raw")).map (fun p => p.2) with
    | some rv =>
      if action = "web_search" then [("query", rv)]
      else if action = "terminal" then [("command", rv)]
      else if action = "finish" then [("answer", rv)]
      else normalizeAlias action action_input
    | none => normalizeAlias action action_input
  else normalizeAlias action action_input

/-- Canonical argument keys of each tool: the parameter names of the tool
functions in tool_executor.py (`cwd`, the implicit working-directory
argument, excluded). -/
def canonicalKeys : String → List String
  | "web_search" => ["query"]
  | "terminal" => ["command"]
  | "file_editor" => ["action", "path", "content"]
  | "finish" => ["answer"]
  | _ => []

/-- `os.path.join` on POSIX for the two-argument uses in the sources. -/
def osPathJoin (a b : String) : String :=
  if pyStartswith b "/" then b
  else if a = "" then b
  else if pyEndswith a "/" then a ++ b
  else a ++ ("/" ++ b)

/-- `os.path.basename` on POSIX: the part after the last slash. -/
def osBasename (p : String) : String :=
  String.mk ((p.data.reverse.takeWhile (fun c => c != '/')).reverse)

/-- The path resolution performed by `file_editor` before any file I/O:
relative paths are joined to the working directory, absolute paths are kept
when they start with the shared workspace base (or the misspelled
`/tmp/agent_workspace` prefix) and otherwise relocated by basename. -/
def file_editor_resolved_path (path : String) (cwd : Option String) : String :=
  let work_dir :=
    match cwd with
    | some c => if c = "" then osPathJoin BASE_WORKSPACE "default" else c
    | none => osPathJoin BASE_WORKSPACE "default"
  if ¬ pyStartswith path "/" then
    osPathJoin work_dir (String.mk (path.data.dropWhile (fun c => c = '/')))
  else if ¬ pyStartswith path BASE_WORKSPACE ∧
      ¬ pyStartswith path "/tmp/agent_workspace" then
    osPathJoin work_dir (osBasename path)
  else path

/-- `p` denotes a location inside directory `dir` (equal to it or strictly
below it), comparing the strings the OS would receive. -/
def insideDir (p dir : String) : Prop :=
  p = dir ∨ pyStartswith p (dir ++ "/") = true

/-- Result of invoking one capability: a returned observation string, a
raised `TypeError` (argument mismatch), or any other raised exception.
The concrete tools are external effects (network, subprocess, filesystem),
specified only at this interface. -/
inductive Outcome where
  | ok (s : String)
  | typeErr (msg : String)
  | exc (msg : String)

/-- An abstract capability set: what each `tool_function(**args)` call does. -/
def Invoke : Type := String → List (String × JVal) → Outcome

mutual

/-- Python `repr` of a JSON-shaped value (used by `str()` on containers). -/
def pyReprJ : JVal → String
  | .str s => String.mk (squote :: (s.data ++ [squote]))
  | .num n => toString n
  | .bool b => if b then "True" else "False"
  | .null => "None"
  | .arr l => "[" ++ String.intercalate ", " (pyReprArr l) ++ "]"
  | .obj l => "\x7b" ++ String.intercalate ", " (pyReprFields l) ++ "\x7d"

/-- `repr` of array elements, in order. -/
def pyReprArr : List JVal → List String
  | [] => []
  | v :: r => pyReprJ v :: pyReprArr r

/-- `repr` of object fields, in order. -/
def pyReprFields : List (String × JVal) → List String
  | [] => []
  | (k, v) :: r =>
    (String.mk (squote :: (k.data ++ [squote])) ++ ": " ++ pyReprJ v) :: pyReprFields r

end

/-- Python `str()` of an argument value. -/
def pyStrJ : JVal → String
  | .str s => s
  | v => pyReprJ v

/-- Python `repr` of `list(d.keys())` for a string-keyed dict. -/
def keysRepr (m : List (String × JVal)) : String :=
  "[" ++ String.intercalate ", "
    (m.map fun p => String.mk (squote :: (p.1.data ++ [squote]))) ++ "]"

/-- The argument dict actually passed to the capability by `execute_tool`:
normalized arguments, with the task workspace injected as `cwd` for the two
filesystem-touching tools. -/
def finalArgs (action : String) (action_input : List (String × JVal))
    (task_workspace : Option String) : List (String × JVal) :=
  let n := _normalize_args action action_input
  match task_workspace with
  | some w =>
    if w ≠ "" ∧ (action = "terminal" ∨ action = "file_editor") then
      dictInsert n "cwd" (.str w)
    else n
  | none => n

/-- Rendering of an exception raised by a fallback invocation (the inner
`except Exception` of `execute_tool`). -/
def fallbackRun (o : Outcome) (action : String) : String :=
  match o with
  | .ok r => r
  | .typeErr m => "Error executing tool " ++ String.mk [squote] ++ action ++
      String.mk [squote] ++ ": " ++ m
  | .exc m => "Error executing tool " ++ String.mk [squote] ++ action ++
      String.mk [squote] ++ ": " ++ m

/-- `execute_tool` from tool_executor.py over an abstract capability set:
name resolution against the capability set, argument normalization, `cwd`
injection, invocation, the single tool-specific retry on `TypeError`, and
the rendering of every exception as a textual observation. -/
def execute_tool (invoke : Invoke) (action0 : String)
    (action_input : List (String × JVal)) (task_workspace : Option String) :
    String :=
  let action := pyLower (pyStrip action0)
  if action ∉ toolNames then
    "Error: Tool " ++ String.mk [squote] ++ action ++ String.mk [squote] ++
      " not found. Available tools: web_search, terminal, file_editor, finish"
  else
    let n := finalArgs action action_input task_workspace
    match invoke action n with
    | .ok r => if r = "" then "(no output)" else r
    | .exc m => "Error executing tool " ++ String.mk [squote] ++ action ++
        String.mk [squote] ++ ": " ++ m
    | .typeErr m =>
      if action = "web_search" then
        fallbackRun
          (invoke "web_search"
            [("query", .str (pyStrJ (((n.head?).map (fun p => p.2)).getD (.str ""))))])
          action
      else if action = "terminal" then
        fallbackRun
          (invoke "terminal"
            ([("command", .str (pyStrJ
                (((n.find? (fun p => p.1 ≠ "cwd")).map (fun p => p.2)).getD (.str ""))))] ++
             [("cwd", match task_workspace with | some w => .str w | none => .null)]))
          action
      else if action = "file_editor" then
        "File editor requires " ++ String.mk [squote] ++ "action" ++
          String.mk [squote] ++ " and " ++ String.mk [squote] ++ "path" ++
          String.mk [squote] ++ " arguments. Got: " ++ keysRepr n
      else if action = "finish" then
        fallbackRun
          (invoke "finish"
            [("answer", .str (pyStrJ
              (((n.head?).map (fun p => p.2)).getD (.str "Task completed."))))])
          action
      else
        "Error: Invalid arguments for tool " ++ String.mk [squote] ++ action ++
          String.mk [squote] ++ ": " ++ m ++ ". Expected args: " ++ keysRepr n

/- ===== memory_manager.py ===== -/

/-- One stored memory entry (memory_manager.py). -/
structure MemEntry where
  text : String
  category : String
  timestamp : Nat
  metadata : JVal

/-- Size cap of one memory scope. -/
def MAX_MEMORIES : Nat := 100

/-- `save_memory` from memory_manager.py, over the whole store (one entry
list per scope file): blank text returns immediately, otherwise the entry is
appended to the scope's list, which is truncated to its newest
`MAX_MEMORIES` entries and written back. -/
def save_memory (store : String → List MemEntry) (text : String)
    (category : String) (metadata : Option JVal) (session_id : String)
    (now : Nat) : String → List MemEntry :=
  if text = "" ∨ pyStrip text = "" then store
  else
    let entry : MemEntry :=
      ⟨pyTake (pyStrip text) 1000, category, now, metadata.getD (.obj [])⟩
    fun sid =>
      if sid = session_id then
        let ms := store session_id ++ [entry]
        if ms.length > MAX_MEMORIES then ms.drop (ms.length - MAX_MEMORIES) else ms
      else store sid

/- ===== main.py ===== -/

/-- `ParsedAction` from main.py. -/
structure ParsedAction where
  thought : JVal
  action : String
  action_input : JVal

/-- Case-insensitive leftmost occurrence of `pat` in `t` (a `re.search` with
`re.IGNORECASE` on a pattern that starts with a fixed word). -/
def findCI (t pat : String) : Option Nat :=
  listFindSub (t.data.map Char.toLower) (pat.data.map Char.toLower)

/-- A character matched by the regex class `[:\s]`. -/
def isColonSpace (c : Char) : Bool := c = ':' || isPySpace c

/-- First finish pattern `TUGAS SELESAI[:\s]*(.*)` (IGNORECASE, DOTALL):
on a match, the value of capture group 1. -/
def pattern1Match (t : String) : Option String :=
  (findCI t "TUGAS SELESAI").map fun i =>
    String.mk ((t.data.drop (i + 13)).dropWhile isColonSpace)

/-- Leftmost position at which one of the alternation's words matches
(`words` tried in the regex's alternation order), with the matched length. -/
def firstAltIdx (lt : List Char) (words : List String) : Option (Nat × Nat) :=
  (List.range (lt.length + 1)).findSome? fun i =>
    (words.find? fun w =>
      List.isPrefixOf (w.data.map Char.toLower) (lt.drop i)).map
      fun w => (i, w.data.length)

/-- Rightmost position `≥ lo` at which one of the alternation's words
matches: the position a greedy `.*` before the alternation backtracks to. -/
def lastAltIdx (lt : List Char) (lo : Nat) (words : List String) :
    Option (Nat × Nat) :=
  ((List.range (lt.length + 1)).reverse).findSome? fun j =>
    if j < lo then none
    else
      (words.find? fun w =>
        List.isPrefixOf (w.data.map Char.toLower) (lt.drop j)).map
        fun w => (j, w.data.length)

/-- Second finish pattern
`(?:tugas|task).*(?:selesai|done|complete|finished)[:\s]*(.*)`
(IGNORECASE, DOTALL): on a match, the value of capture group 1. -/
def pattern2Match (t : String) : Option String :=
  let lt := t.data.map Char.toLower
  match firstAltIdx lt ["tugas", "task"] with
  | none => none
  | some (p, w) =>
    match lastAltIdx lt (p + w) ["selesai", "done", "complete", "finished"] with
    | none => none
    | some (j, w2) =>
      some (String.mk ((t.data.drop (j + w2)).dropWhile isColonSpace))

/-- Third finish pattern `(?:semua|all).*(?:langkah|step).*(?:selesai|done|complete)`
(IGNORECASE, DOTALL): whether it matches somewhere in `t`. This pattern has
no capture group. -/
def pattern3Match (t : String) : Bool :=
  let lt := t.data.map Char.toLower
  (List.range (lt.length + 1)).any fun q =>
    ["semua", "all"].any fun w =>
      List.isPrefixOf (w.data.map Char.toLower) (lt.drop q) &&
      ((List.range (lt.length + 1)).any fun j =>
        decide (q + w.data.length ≤ j) &&
        (["langkah", "step"].any fun w2 =>
          List.isPrefixOf (w2.data.map Char.toLower) (lt.drop j) &&
          ((List.range (lt.length + 1)).any fun k =>
            decide (j + w2.data.length ≤ k) &&
            (["selesai", "done", "complete"].any fun w3 =>
              List.isPrefixOf (w3.data.map Char.toLower) (lt.drop k)))))

/-- Group-1 handling shared by the first two finish patterns:
`match.group(1).strip() if match.group(1) else llm_text[:500]`, then the
first 500 characters again if the stripped answer is empty. -/
def finishAnswer (g t : String) : String :=
  if g = "" then pyTake t 500
  else
    let s := pyStrip g
    if s = "" then pyTake t 500 else s

/-- The fence characters of a markdown code block. -/
def fenceChars : List Char := [btick, btick, btick]

/-- `_extract_code_blocks`: every region matched by the regex
```(\w*)\n(.*?)``` with DOTALL, in document order, as
(lowercased language tag, stripped body). When a fence is not followed by a
word-run and a newline, or has no closing fence, the scan resumes one
character later, as `re.finditer` does. -/
def extractGo : Nat → List Char → List (String × String)
  | 0, _ => []
  | fuel + 1, t =>
    match listFindSub t fenceChars with
    | none => []
    | some i =>
      let afterOpen := t.drop (i + 3)
      let lang := afterOpen.takeWhile isWordChar
      let rest := afterOpen.drop lang.length
      match rest with
      | '\n' :: body =>
        match listFindSub body fenceChars with
        | some j =>
          (String.mk (lang.map Char.toLower),
           String.mk (((body.take j).dropWhile isPySpace).reverse.dropWhile
             isPySpace |>.reverse)) :: extractGo fuel (body.drop (j + 3))
        | none => extractGo fuel (t.drop (i + 1))
      | _ => extractGo fuel (t.drop (i + 1))

/-- `_extract_code_blocks` on a string. -/
def extractCodeBlocks (t : String) : List (String × String) :=
  extractGo t.data.length t.data

/-- The leading command verbs recognised by `_extract_shell_commands`. -/
def shellVerbs : List String :=
  ["sudo ", "apt ", "npm ", "pip ", "mkdir ", "cd ", "ls ", "cat ", "echo ",
   "touch ", "cp ", "mv ", "rm ", "curl ", "wget ", "python ", "node ", "git "]

/-- Python `s.split('\n')`: the lines of `s`, structurally. -/
def splitLines (t : String) : List String :=
  (t.data.foldr
    (fun c acc =>
      match acc with
      | [] => [[c]]
      | cur :: rest => if c = '\n' then [] :: cur :: rest else (c :: cur) :: rest)
    [[]]).map String.mk

/-- `_extract_shell_commands`: stripped lines starting with a shell prompt
marker, or with an allow-listed verb under the length ceiling and not ending
in a colon. -/
def _extract_shell_commands (t : String) : List String :=
  (splitLines t).filterMap fun line =>
    let s := pyStrip line
    if pyStartswith s "$ " then some (pyDrop s 2)
    else if pyStartswith s "> " then some (pyDrop s 2)
    else if shellVerbs.any (fun v => pyStartswith s v) then
      if s.data.length < 200 && ¬ pyEndswith s ":" then some s else none
    else none

/-- The character class `[/\w._-]` of the path patterns. -/
def isPathChar (c : Char) : Bool :=
  c = '/' || isWordChar c || c = '.' || c = '-'

/-- The quote class of the path patterns: backquote, double or single quote. -/
def quoteChars : List Char := [btick, '"', squote]

/-- Match of `([/\w._-]+\.\w+)['"`]` (resp. with extension length capped at
`extMax`) whose group starts right after position `q`, which must hold a
quote: the maximal path-character run must decompose as `stem.ext` with a
nonempty stem, a nonempty word-character extension within the cap, and be
followed by a closing quote. Returns the group. -/
def pathGroupAt (r : List Char) (q : Nat) (extMax : Option Nat) :
    Option String :=
  match r.drop q with
  | [] => none
  | c :: rest =>
    if quoteChars.contains c then
      let run := rest.takeWhile isPathChar
      let closed :=
        match rest.drop run.length with
        | c2 :: _ => quoteChars.contains c2
        | [] => false
      let ext := (run.reverse.takeWhile isWordChar).reverse
      let okExt :=
        match extMax with
        | some m => decide (1 ≤ ext.length) && decide (ext.length ≤ m)
        | none => decide (1 ≤ ext.length)
      let pre := run.take (run.length - ext.length)
      if closed && okExt && decide (pre.getLast? = some '.') &&
          decide (2 ≤ pre.length) then
        some (String.mk run)
      else none
    else none

/-- The trigger words of the first path pattern
`(?:file|simpan|buat|tulis|save).*?[...]` (IGNORECASE). -/
def pathTriggerWords : List String := ["file", "simpan", "buat", "tulis", "save"]

/-- `re.search` of the first path pattern on a region: leftmost trigger-word
position, then the lazily closest quoted path-looking group after it. -/
def searchPathPatternA (r : List Char) : Option String :=
  let rl := r.map Char.toLower
  (List.range (rl.length + 1)).findSome? fun p =>
    (pathTriggerWords.find? fun w =>
      List.isPrefixOf (w.data.map Char.toLower) (rl.drop p)).bind fun w =>
      (List.range (r.length + 1)).findSome? fun q =>
        if p + w.data.length ≤ q then pathGroupAt r q none else none

/-- `re.search` of the second path pattern
`['"`]([/\w._-]+\.\w{1,5})['"`]` on a region: leftmost match. -/
def searchPathPatternB (r : List Char) : Option String :=
  (List.range (r.length + 1)).findSome? fun q => pathGroupAt r q (some 5)

/-- `last_500 = search_region[-500:]`. -/
def last500 (l : List Char) : List Char :=
  if 500 < l.length then l.drop (l.length - 500) else l

/-- The language set of the fallback filename table in `_extract_file_writes`. -/
def extLangs : List String :=
  ["html", "css", "js", "javascript", "python", "py", "json", "tsx", "jsx",
   "ts", "php", "java", "c", "cpp", "go", "rust", "rb", "ruby"]

/-- The language-to-canonical-filename table `ext_map`. -/
def extMap : List (String × String) :=
  [("html", "index.html"), ("css", "style.css"), ("js", "script.js"),
   ("javascript", "script.js"), ("python", "main.py"), ("py", "main.py"),
   ("json", "data.json"), ("tsx", "App.tsx"), ("jsx", "App.jsx"),
   ("ts", "index.ts"), ("php", "index.php"), ("java", "Main.java"),
   ("go", "main.go"), ("rust", "main.rs"), ("rb", "main.rb"),
   ("ruby", "main.rb"), ("c", "main.c"), ("cpp", "main.cpp")]

/-- `_extract_file_writes`: for each block, scan the 500 characters before
the block's body for a quoted path near a file/save word (then for any
quoted path with a short extension); absent that, fall back to the fixed
language-to-filename table. Returns `(path, content)`. -/
def _extract_file_writes (text : String) (code_blocks : List (String × String))
    (workspace_dir : String) : Option (String × String) :=
  let viaPath := code_blocks.findSome? fun b =>
    let region :=
      match listFindSub text.data b.2.data with
      | some i => text.data.take i
      | none => text.data
    let l5 := last500 region
    match searchPathPatternA l5 with
    | some p => some (p, b.2)
    | none => (searchPathPatternB l5).map fun p => (p, b.2)
  match viaPath with
  | some (path, content) =>
    let path2 := if pyStartswith path "/" then path
      else workspace_dir ++ ("/" ++ path)
    some (path2, content)
  | none =>
    code_blocks.findSome? fun b =>
      if b.1 ∈ extLangs then
        some (workspace_dir ++ ("/" ++
          ((extMap.find? (fun p => p.1 = b.1)).map (fun p => p.2)).getD
            ("file." ++ b.1)), b.2)
      else none

/-- The language tags that make a fenced block a bash block. -/
def bashLangs : List String := ["bash", "sh", "shell", "console", "terminal", ""]

/-- The goal keywords of the step-1 search fallback. -/
def searchIndicators : List String :=
  ["cari", "search", "temukan", "find", "informasi", "data tentang", "apa itu"]

/-- `llm_text[:200].replace('\n', ' ').strip()`. -/
def mkThoughtExcerpt (t : String) : String :=
  pyStrip (String.mk ((t.data.take 200).map fun c => if c = '\n' then ' ' else c))

/-- `interpret_response` from main.py: the strategy cascade on raw LLM text.
The result is `Except`: `.error` models a raised exception. The only raise
site is the third finish pattern, which has no capture group while the
handler reads `match.group(1)`, so a text reaching it raises `IndexError`. -/
def interpret_response (llm_text user_prompt : String) (step : Nat)
    (history : List JVal) (workspace_dir : String) :
    Except String ParsedAction :=
  match pattern1Match llm_text with
  | some g =>
    .ok ⟨.str "Tugas telah selesai", "finish",
      .obj [("answer", .str (finishAnswer g llm_text))]⟩
  | none =>
  match pattern2Match llm_text with
  | some g =>
    .ok ⟨.str "Tugas telah selesai", "finish",
      .obj [("answer", .str (finishAnswer g llm_text))]⟩
  | none =>
  if pattern3Match llm_text then .error "IndexError: no such group"
  else
    let code_blocks := extractCodeBlocks llm_text
    let shell_commands := _extract_shell_commands llm_text
    let bash_blocks := code_blocks.filter fun b => b.1 ∈ bashLangs
    let code_only_blocks := code_blocks.filter fun b => b.1 ∉ bashLangs
    let bashAction : Option ParsedAction :=
      match bash_blocks with
      | [] => none
      | b :: _ =>
        match (splitLines b.2).filter
            (fun l => pyStrip l ≠ "" ∧ ¬ pyStartswith (pyStrip l) "#") with
        | [] => none
        | l0 :: ls =>
          let command :=
            if (l0 :: ls).length ≤ 5 then String.intercalate " && " (l0 :: ls)
            else l0
          some ⟨.str (mkThoughtExcerpt llm_text), "terminal",
            .obj [("command", .str command)]⟩
    match bashAction with
    | some pa => .ok pa
    | none =>
    match (if code_only_blocks ≠ [] ∧ step ≤ 2 then
        _extract_file_writes llm_text code_only_blocks workspace_dir
      else none) with
    | some pc =>
      .ok ⟨.str (mkThoughtExcerpt llm_text), "file_editor",
        .obj [("action", .str "write"), ("path", .str pc.1),
              ("content", .str pc.2)]⟩
    | none =>
    match shell_commands with
    | cmd :: _ =>
      .ok ⟨.str (mkThoughtExcerpt llm_text), "terminal",
        .obj [("command", .str cmd)]⟩
    | [] =>
    match (if code_only_blocks ≠ [] then
        _extract_file_writes llm_text code_only_blocks workspace_dir
      else none) with
    | some pc =>
      .ok ⟨.str (mkThoughtExcerpt llm_text), "file_editor",
        .obj [("action", .str "write"), ("path", .str pc.1),
              ("content", .str pc.2)]⟩
    | none =>
    if searchIndicators.any (fun ind => pyIn ind (pyLower user_prompt)) ∧
        step = 1 then
      .ok ⟨.str ("Mencari informasi tentang: " ++ user_prompt), "web_search",
        .obj [("query", .str user_prompt)]⟩
    else
      .ok ⟨.str "Menganalisis respons dan memberikan jawaban", "finish",
        .obj [("answer", .str llm_text)]⟩

/-- The fence-marker removal `re.sub(r"```(?:json)?\s*", "", clean)` of
`_try_parse_json_format`: every fence, optionally followed by the tag
`json`, then any whitespace run, is deleted; scanning resumes after each
deleted region. -/
def stripFences : Nat → List Char → List Char
  | 0, l => l
  | _, [] => []
  | f + 1, c :: rest =>
    if List.isPrefixOf fenceChars (c :: rest) then
      let r1 := (c :: rest).drop 3
      let r2 := if List.isPrefixOf ['j', 's', 'o', 'n'] r1 then r1.drop 4 else r1
      stripFences f (r2.dropWhile isPySpace)
    else c :: stripFences f rest

/-- Index of the first occurrence of character `c`. -/
def firstIdxOf (l : List Char) (c : Char) : Option Nat :=
  (List.range l.length).find? fun i => l.get? i = some c

/-- Index of the last occurrence of character `c`. -/
def lastIdxOf (l : List Char) (c : Char) : Option Nat :=
  ((List.range l.length).reverse).find? fun i => l.get? i = some c

/-- `re.search(r'\{.*\}', clean, re.DOTALL)`: the span from the first
opening brace to the last closing brace, when both exist in that order. -/
def braceSpan (clean : String) : Option String :=
  match firstIdxOf clean.data '{', lastIdxOf clean.data '}' with
  | some i, some j =>
    if i < j then some (String.mk ((clean.data.drop i).take (j - i + 1)))
    else none
  | _, _ => none

/-- One pass of `re.sub(r',\s*C', 'C', s)` for a closing character `C`:
drop every comma (with following whitespace) that directly precedes `C`. -/
def fixTrailing (close : Char) : Nat → List Char → List Char
  | 0, l => l
  | _, [] => []
  | f + 1, c :: rest =>
    if c = ',' then
      let ws := rest.takeWhile isPySpace
      match rest.drop ws.length with
      | c2 :: r2 =>
        if c2 = close then close :: fixTrailing close f r2
        else c :: fixTrailing close f rest
      | [] => c :: fixTrailing close f rest
    else c :: fixTrailing close f rest

/-- The two forgiving JSON repairs of `_try_parse_json_format`: drop
trailing commas before `}` and before `]`. -/
def repairJson (s : String) : String :=
  let l1 := fixTrailing '}' s.data.length s.data
  String.mk (fixTrailing ']' l1.length l1)

/-- The tool-name resolution loop over `AVAILABLE_TOOLS`: the first
canonical name that is a substring of the candidate, else the candidate. -/
def resolveToolName (n : String) : String :=
  (toolNames.find? fun t => pyIn t n).getD n

/-- Interpretation of a parsed JSON value by `_try_parse_json_format`:
a dict with an `action` field, whose action is either an object with
`name`/`args` or a bare string with a sibling args field. `.error` models
the `AttributeError` raised when `name` is not a string. -/
def handleParsed (v : JVal) : Except String (Option ParsedAction) :=
  match v with
  | .obj d =>
    match objGet d "action" with
    | some action_data =>
      let thought := (objGet d "thought").getD (.str "Processing...")
      match action_data with
      | .obj ad =>
        match objGet ad "name" with
        | some (.str nm) =>
          let action_name := resolveToolName (pyLower (pyStrip nm))
          let action_args := (objGet ad "args").getD (.obj [])
          if action_name ∈ toolNames then
            .ok (some ⟨thought, action_name, action_args⟩)
          else .ok none
        | some _ => .error "AttributeError: strip"
        | none => .ok none
      | .str s =>
        let action_name := resolveToolName (pyLower (pyStrip s))
        let args0 := (objGet d "args").getD
          ((objGet d "action_input").getD ((objGet d "input").getD (.obj [])))
        let action_args :=
          match args0 with
          | .str r => JVal.obj [("raw", .str r)]
          | x => x
        if action_name ∈ toolNames then
          .ok (some ⟨thought, action_name, action_args⟩)
        else .ok none
      | _ => .ok none
    | none => .ok none
  | _ => .ok none

/-- `_try_parse_json_format` from main.py: strip a leading fenced wrapper,
take the first-to-last brace span, parse it as JSON (retrying once after the
trailing-comma repairs), and interpret the result. `.ok none` is Python's
`return None`; `.error` a raised exception. -/
def tryParseJsonFormat (output : String) : Except String (Option ParsedAction) :=
  let clean0 := pyStrip output
  let clean :=
    if pyStartswith clean0 "```" then
      pyStrip (String.mk
        (((stripFences clean0.data.length clean0.data).reverse.dropWhile
          (fun c => c = btick)).reverse))
    else clean0
  match braceSpan clean with
  | none => .ok none
  | some json_str =>
    match jsonLoads json_str with
    | some v => handleParsed v
    | none =>
      match jsonLoads (repairJson json_str) with
      | some v => handleParsed v
      | none => .ok none

/-- The parsing cascade of `call_llm` (main.py lines 338-353): the
structured-JSON strategy first, then `interpret_response`; any exception
raised inside the `try` block is caught and turned into `(None, str(e))`,
modelled as `none`. -/
def call_llm_parse (llm_text user_prompt : String) (step : Nat)
    (history : List JVal) (workspace_dir : String) : Option ParsedAction :=
  match tryParseJsonFormat llm_text with
  | .error _ => none
  | .ok (some p) => some p
  | .ok none =>
    match interpret_response llm_text user_prompt step history workspace_dir with
    | .error _ => none
    | .ok p => some p

/-- The self-correction state of `stream_task`: `retry_count` and
`last_failed_command` (the serialized arguments of the last failing
terminal action). -/
structure RetryState where
  retry_count : Nat
  last_failed_command : Option String

/-- The initial self-correction state of a run. -/
def initRetry : RetryState := ⟨0, none⟩

/-- The retry cap `max_retries_per_error`. -/
def max_retries_per_error : Nat := 3

/-- A `self_correction` event sent over the stream: an in-progress attempt
(with its attempt number) or the giving-up message, both carrying
`retry_attempt` and `max_retries`. -/
inductive Signal where
  | attempt (retry_attempt : Nat) (max_retries : Nat)
  | giveUp (retry_attempt : Nat) (max_retries : Nat)

/-- What one dispatched iteration contributes to the self-correction logic:
a terminal-tool error with the serialized argument signature
`json.dumps(parsed.action_input)`, or anything else (non-error output or a
non-terminal action). -/
inductive TermEvent where
  | err (sig : String)
  | noErr

/-- One pass of main.py lines 466-494: on a terminal error, increment
`retry_count`, compare the signature with the stored one, emit the attempt
or give-up signal, and update the state; otherwise clear the stored
signature. -/
def trackStep (st : RetryState) : TermEvent → Option Signal × RetryState
  | .err s =>
    let rc := st.retry_count + 1
    let is_same_error := st.last_failed_command = some s
    let same_error_retries := if is_same_error then rc else 1
    if same_error_retries ≤ max_retries_per_error then
      (some (.attempt same_error_retries max_retries_per_error), ⟨rc, some s⟩)
    else
      (some (.giveUp same_error_retries max_retries_per_error), ⟨0, none⟩)
  | .noErr => (none, ⟨st.retry_count, none⟩)

/-- The self-correction logic over a sequence of dispatch outcomes:
the emitted signals, in order, and the final state. -/
def trackRun (st : RetryState) : List TermEvent →
    List (Option Signal) × RetryState
  | [] => ([], st)
  | e :: rest =>
    let step := trackStep st e
    let tail := trackRun step.2 rest
    (step.1 :: tail.1, tail.2)

/-- The iteration budget of `stream_task`. -/
def max_iterations : Nat := 20

/-- The control-loop skeleton of `stream_task` on its exception-free paths,
abstracted over what each `call_llm` call yields (`none` models the
generation-failure case where `call_llm` returns no parsed action). Returns
the task's status field at loop exit and the number of LLM calls made.
The status starts as "running"; the generation-failure break leaves it
unchanged, a finish action sets "completed", budget exhaustion sets
"max_iterations". -/
def stream_task_loop (oracle : Nat → Option ParsedAction) :
    Nat → Nat → String × Nat
  | 0, _ => ("max_iterations", 0)
  | fuel + 1, i =>
    match oracle i with
    | none => ("running", 1)
    | some p =>
      if p.action = "finish" then ("completed", 1)
      else
        let r := stream_task_loop oracle fuel (i + 1)
        (r.1, r.2 + 1)

/-- A full run of the control loop from step 0 with the fixed budget. -/
def stream_task_run (oracle : Nat → Option ParsedAction) : String × Nat :=
  stream_task_loop oracle max_iterations 0

/-- The exact LLM text of C8: a ReAct-style block whose action input
carries a trailing comma. -/
def reactSample : String :=
  "Thought: do X\nAction: file_editor\nAction Input: \x7b\"action\":\"write\",\"path\":\"a.py\",\"content\":\"print(1)\",\x7d"

/-- A completion phrase followed by an embedded JSON action object. -/
def jsonPrioritySample : String :=
  "TUGAS SELESAI: beres \x7b\"action\": \x7b\"name\": \"terminal\", \"args\": \x7b\"command\": \"ls\"\x7d\x7d\x7d"

/-- A completion phrase followed by a code fence. -/
def finishFenceSample : String := "TUGAS SELESAI: ok\n```bash\nls\n```"

/- ===== helper lemmas ===== -/

theorem isPrefixOf_append_self (l t : List Char) :
    List.isPrefixOf l (l ++ t) = true := by
  simp [List.isPrefixOf_iff_prefix]

theorem isPrefixOf_trans (a b c : List Char) (h1 : List.isPrefixOf a b = true)
    (h2 : List.isPrefixOf b c = true) : List.isPrefixOf a c = true := by
  simp [List.isPrefixOf_iff_prefix] at *
  exact h1.trans h2

theorem pyStartswith_append (a y : String) : pyStartswith (a ++ y) a = true := by
  have hd : (a ++ y).data = a.data ++ y.data := rfl
  simp only [pyStartswith, hd]
  exact isPrefixOf_append_self a.data y.data

theorem head_dropWhile_false (p : Char → Bool) (l : List Char) (a : Char)
    (h : (l.dropWhile p).head? = some a) : p a = false := by
  induction l with
  | nil => simp at h
  | cons c t ih =>
    rw [List.dropWhile_cons] at h
    by_cases hc : p c
    · rw [if_pos hc] at h; exact ih h
    · rw [if_neg hc] at h; simp at h; subst h; simpa using hc

theorem not_prefix_single (c : Char) (l : List Char)
    (h : ∀ a, l.head? = some a → a ≠ c) : List.isPrefixOf [c] l = false := by
  cases l with
  | nil => rfl
  | cons a t =>
    have ha : a ≠ c := h a rfl
    show ((c == a) && List.isPrefixOf ([] : List Char) t) = false
    have hb : (c == a) = false := by
      simpa using fun he => ha he.symm
    rw [hb]
    rfl

/- ===== C1 ===== -/

/-- Claim C1 (code bug): `interpret_response` does not always return a
`ParsedAction` — on the input "all steps done" the third finish pattern
matches but has no capture group, so reading `match.group(1)` raises
`IndexError` instead of producing an action. -/
theorem interpret_response_pattern3_raises :
    interpret_response "all steps done" "g" 1 [] "/ws" =
      .error "IndexError: no such group" := by
  rfl

/- ===== C2 ===== -/

/-- Claim C2 (counterexample): a text that contains the completion phrase
"TUGAS SELESAI" and also embeds a JSON action object is parsed by the
cascade of `call_llm` as that JSON action (here `terminal`), not as a
finish action, because `call_llm` runs `_try_parse_json_format` before
`interpret_response`. -/
theorem json_priority_over_finish_phrase :
    pyIn "tugas selesai" (pyLower jsonPrioritySample) = true ∧
    (call_llm_parse jsonPrioritySample "g" 1 [] "/ws").map ParsedAction.action =
      some "terminal" ∧ ("terminal" : String) ≠ "finish" :=
  ⟨rfl, rfl, by decide⟩

/-- Claim C2 (amended): the finish-phrase check is the first strategy of
`interpret_response`, so it wins over every other strategy there (code
fences, shell lines, file-write guesses, search fallback): a text matching
the first completion pattern — or the second, when the first does not
match — yields a finish action regardless of the rest of the text. These
are exactly the finish-yielding completion cases: a text where only the
group-less third pattern matches raises `IndexError` instead (claim C1),
and the cascade used by `call_llm` runs the structured-JSON strategy before
`interpret_response`, so an embedded parseable JSON action object beats the
completion phrase at that level. -/
theorem finish_phrase_first_in_interpret_response (t up : String) (step : Nat)
    (hist : List JVal) (ws g : String) :
    (pattern1Match t = some g →
      interpret_response t up step hist ws =
        .ok ⟨.str "Tugas telah selesai", "finish",
          .obj [("answer", .str (finishAnswer g t))]⟩) ∧
    (pattern1Match t = none → pattern2Match t = some g →
      interpret_response t up step hist ws =
        .ok ⟨.str "Tugas telah selesai", "finish",
          .obj [("answer", .str (finishAnswer g t))]⟩) := by
  constructor
  · intro h1
    unfold interpret_response
    rw [h1]
  · intro h1 h2
    unfold interpret_response
    rw [h1, h2]

/-- Claim C2 witness: a first-pattern phrase followed by a bash fence, and
a text matching only the second pattern, both parse as finish inside
`interpret_response`. -/
theorem finish_phrase_first_in_interpret_response_witness :
    interpret_response finishFenceSample "g" 1 [] "/ws" =
      .ok ⟨.str "Tugas telah selesai", "finish",
        .obj [("answer", .str "ok\n```bash\nls\n```")]⟩ ∧
    interpret_response "task done: x" "g" 1 [] "/ws" =
      .ok ⟨.str "Tugas telah selesai", "finish",
        .obj [("answer", .str "x")]⟩ :=
  ⟨(finish_phrase_first_in_interpret_response finishFenceSample "g" 1 [] "/ws"
      "ok\n```bash\nls\n```").1 rfl,
   (finish_phrase_first_in_interpret_response "task done: x" "g" 1 [] "/ws"
      "x").2 rfl rfl⟩

/- ===== C3 ===== -/

/-- Claim C3 (counterexample): when the first `call_llm` call yields no
parsed action (generation failure), the loop sends a final answer and
breaks, leaving the task status "running", which is none of the four
terminal states. -/
theorem stream_task_generation_failure_status :
    stream_task_run (fun _ => none) = ("running", 1) ∧
    "running" ∉
      (["completed", "max_iterations", "error", "disconnected"] : List String) :=
  ⟨rfl, by decide⟩

theorem stream_task_loop_aux (oracle : Nat → Option ParsedAction) :
    ∀ fuel i, (stream_task_loop oracle fuel i).2 ≤ fuel ∧
      ((stream_task_loop oracle fuel i).1 = "completed" ∨
       (stream_task_loop oracle fuel i).1 = "max_iterations" ∨
       (stream_task_loop oracle fuel i).1 = "running") ∧
      ((∀ j, (oracle j).isSome) → (stream_task_loop oracle fuel i).1 ≠ "running") := by
  intro fuel
  induction fuel with
  | zero =>
    intro i
    have hx : stream_task_loop oracle 0 i = ("max_iterations", 0) := rfl
    rw [hx]
    exact ⟨Nat.le_refl 0, Or.inr (Or.inl rfl), fun _ => by decide⟩
  | succ f ih =>
    intro i
    cases ho : oracle i with
    | none =>
      have hx : stream_task_loop oracle (f + 1) i = ("running", 1) := by
        simp only [stream_task_loop, ho]
      rw [hx]
      refine ⟨by omega, Or.inr (Or.inr rfl), fun hall => ?_⟩
      have hj := hall i
      rw [ho] at hj
      simp at hj
    | some p =>
      by_cases hf : p.action = "finish"
      · have hx : stream_task_loop oracle (f + 1) i = ("completed", 1) := by
          simp only [stream_task_loop, ho, if_pos hf]
        rw [hx]
        exact ⟨by omega, Or.inl rfl, fun _ => by decide⟩
      · have hx : stream_task_loop oracle (f + 1) i =
            ((stream_task_loop oracle f (i + 1)).1,
             (stream_task_loop oracle f (i + 1)).2 + 1) := by
          simp only [stream_task_loop, ho, if_neg hf]
        rw [hx]
        obtain ⟨ha, hb, hc⟩ := ih (i + 1)
        exact ⟨by omega, hb, hc⟩

/-- Claim C3 (amended): every exception-free run of the control loop makes
at most `max_iterations` LLM calls, and exits with status "completed",
"max_iterations", or — only on the generation-failure break, where no
status is assigned — still "running". When every LLM call yields a parsed
action, the exit status is one of the two terminal loop outcomes. (The
`except` handlers of `stream_task` additionally map disconnection to
"disconnected" and any other exception to "error".) -/
theorem stream_task_budget_and_status (oracle : Nat → Option ParsedAction) :
    (stream_task_run oracle).2 ≤ max_iterations ∧
    ((stream_task_run oracle).1 = "completed" ∨
     (stream_task_run oracle).1 = "max_iterations" ∨
     (stream_task_run oracle).1 = "running") ∧
    ((∀ j, (oracle j).isSome) → (stream_task_run oracle).1 ≠ "running") :=
  stream_task_loop_aux oracle max_iterations 0

/-- Claim C3 witness: a run whose every LLM call parses to a finish action
completes in one call with a non-"running" status. -/
theorem stream_task_budget_and_status_witness :
    (stream_task_run (fun _ => some ⟨.str "t", "finish", .obj []⟩)).2 ≤
      max_iterations ∧
    ((stream_task_run (fun _ => some ⟨.str "t", "finish", .obj []⟩)).1 =
      "completed" ∨
     (stream_task_run (fun _ => some ⟨.str "t", "finish", .obj []⟩)).1 =
      "max_iterations" ∨
     (stream_task_run (fun _ => some ⟨.str "t", "finish", .obj []⟩)).1 =
      "running") ∧
    (stream_task_run (fun _ => some ⟨.str "t", "finish", .obj []⟩)).1 ≠
      "running" := by
  obtain ⟨ha, hb, hc⟩ :=
    stream_task_budget_and_status (fun _ => some ⟨.str "t", "finish", .obj []⟩)
  exact ⟨ha, hb, hc (fun j => rfl)⟩

/- ===== C5 ===== -/

/-- Claim C5 (code bug): the underlying counter `retry_count` is not reset
when the failing signature changes — only the reported attempt number is.
After two failures with signature "A", the first failure with the new
signature "B" is reported as attempt 1, but on B's second failure the
computed attempt number is `retry_count = 4 > 3`, so the tracker gives up:
a different recurring error does not receive its own full retry budget. -/
theorem retry_budget_not_reset_for_new_signature :
    trackRun initRetry
      [.err "A", .err "A", .err "B", .err "B"] =
      ([some (.attempt 1 3), some (.attempt 2 3), some (.attempt 1 3),
        some (.giveUp 4 3)], ⟨0, none⟩) := by
  rfl

/- ===== C6 ===== -/

/-- Claim C6: starting from the initial state, four consecutive terminal
errors with one identical signature produce the in-progress signals with
attempt numbers 1, 2, 3, and the fourth failure produces the give-up
signal, after which the counter is 0 and the stored signature cleared. -/
theorem self_correction_attempt_sequence (s : String) :
    trackRun initRetry [.err s, .err s, .err s, .err s] =
      ([some (.attempt 1 3), some (.attempt 2 3), some (.attempt 3 3),
        some (.giveUp 4 3)], ⟨0, none⟩) := by
  simp [trackRun, trackStep, initRetry, max_retries_per_error]

/- ===== C10 ===== -/

/-- Claim C10: `save_memory` called with text that is empty or whitespace
only returns before touching the store: every scope's stored list is
exactly what it was. -/
theorem save_memory_blank_text_noop (store : String → List MemEntry)
    (text category : String) (metadata : Option JVal) (sid : String)
    (now : Nat) (h : pyStrip text = "") :
    save_memory store text category metadata sid now = store := by
  unfold save_memory
  rw [if_pos (Or.inr h)]

/-- Claim C10 witness. -/
theorem save_memory_blank_text_noop_witness :
    save_memory (fun _ => []) " \n " "general" none "global" 0 =
      (fun _ => ([] : List MemEntry)) :=
  save_memory_blank_text_noop (fun _ => []) " \n " "general" none "global" 0 rfl

/- ===== C4 ===== -/

theorem osPathJoin_startswith (c x : String) (hc : c ≠ "")
    (hx : pyStartswith x "/" = false) :
    pyStartswith (osPathJoin c x) c = true := by
  unfold osPathJoin
  rw [if_neg (by simp [hx]), if_neg hc]
  by_cases he : pyEndswith c "/"
  · rw [if_pos he]; exact pyStartswith_append c x
  · rw [if_neg he]; exact pyStartswith_append c ("/" ++ x)

/-- Claim C4 (counterexample): an absolute path inside another task's
workspace starts with the shared base, so `file_editor` keeps it unchanged:
the file effect lands outside the calling task's workspace. -/
theorem file_editor_cross_workspace_escape :
    file_editor_resolved_path "/tmp/agent_workspaces/other-task/secret.txt"
      (some "/tmp/agent_workspaces/task-a") =
      "/tmp/agent_workspaces/other-task/secret.txt" ∧
    ¬ insideDir "/tmp/agent_workspaces/other-task/secret.txt"
        "/tmp/agent_workspaces/task-a" := by
  refine ⟨rfl, ?_⟩
  unfold insideDir
  decide

/-- Claim C4 (amended): with a nonempty task workspace as `cwd`, every path
`file_editor` resolves either starts with that workspace directory (relative
paths joined to it, and relocated basenames) or starts with the shared
prefix "/tmp/agent_workspace" (absolute paths kept unchanged, including
other tasks' workspaces under the shared base) — confinement holds only up
to the shared base, not the task's own workspace, and `..` components are
not normalized. -/
theorem file_editor_path_under_shared_base (path c : String) (hc : c ≠ "") :
    pyStartswith (file_editor_resolved_path path (some c)) c = true ∨
    pyStartswith (file_editor_resolved_path path (some c))
      "/tmp/agent_workspace" = true := by
  simp only [file_editor_resolved_path]
  rw [if_neg hc]
  by_cases habs : pyStartswith path "/" = true
  · rw [if_neg (by simp [habs])]
    by_cases hout : ¬ pyStartswith path BASE_WORKSPACE ∧
        ¬ pyStartswith path "/tmp/agent_workspace"
    · rw [if_pos hout]
      left
      apply osPathJoin_startswith _ _ hc
      show List.isPrefixOf ['/']
        ((path.data.reverse.takeWhile (fun c => c != '/')).reverse) = false
      apply not_prefix_single
      intro a ha
      have hmem : a ∈ (path.data.reverse.takeWhile (fun c => c != '/')).reverse := by
        cases hl : (path.data.reverse.takeWhile (fun c => c != '/')).reverse with
        | nil => rw [hl] at ha; simp at ha
        | cons b t =>
          rw [hl] at ha
          simp at ha
          subst ha
          exact List.mem_cons_self _ _
      rw [List.mem_reverse] at hmem
      have := List.mem_takeWhile_imp hmem
      simpa using this
    · rw [if_neg hout]
      right
      rcases Decidable.not_and_iff_or_not.mp hout with h | h
      · have hb : pyStartswith path BASE_WORKSPACE = true := by
          by_contra hbn
          exact h (by simpa using hbn)
        show List.isPrefixOf ("/tmp/agent_workspace").data path.data = true
        apply isPrefixOf_trans _ (BASE_WORKSPACE).data
        · decide
        · exact hb
      · have hb : pyStartswith path "/tmp/agent_workspace" = true := by
          by_contra hbn
          exact h (by simpa using hbn)
        exact hb
  · rw [if_pos (by simp [habs])]
    left
    apply osPathJoin_startswith _ _ hc
    show List.isPrefixOf ['/'] (path.data.dropWhile (fun c => c = '/')) = false
    apply not_prefix_single
    intro a ha
    have := head_dropWhile_false _ _ _ ha
    simpa using this

/-- Claim C4 witness: a relative path resolves under the task workspace. -/
theorem file_editor_path_under_shared_base_witness :
    pyStartswith
      (file_editor_resolved_path "x.txt" (some "/tmp/agent_workspaces/task-a"))
      "/tmp/agent_workspaces/task-a" = true ∨
    pyStartswith
      (file_editor_resolved_path "x.txt" (some "/tmp/agent_workspaces/task-a"))
      "/tmp/agent_workspace" = true :=
  file_editor_path_under_shared_base "x.txt" "/tmp/agent_workspaces/task-a"
    (by decide)

/- ===== C7 ===== -/

/-- Claim C7: `execute_tool` is a total function into observation strings
(its Lean model returns a `String` on every input, mirroring the
`try/except` structure of the source, so no exception propagates): a
trimmed, lowercased name outside the capability set yields the textual
error enumerating the valid tools, and an invocation that raises a
non-`TypeError` exception yields "Error executing tool '<name>': <message>"
(a `TypeError` first takes the tool-specific single-argument retry). -/
theorem execute_tool_total_and_error_messages (invoke : Invoke) (a : String)
    (input : List (String × JVal)) (ws : Option String) :
    (pyLower (pyStrip a) ∉ toolNames →
      execute_tool invoke a input ws =
        "Error: Tool " ++ String.mk [squote] ++ pyLower (pyStrip a) ++
          String.mk [squote] ++
          " not found. Available tools: web_search, terminal, file_editor, finish") ∧
    (∀ m, pyLower (pyStrip a) ∈ toolNames →
      invoke (pyLower (pyStrip a)) (finalArgs (pyLower (pyStrip a)) input ws) =
        .exc m →
      execute_tool invoke a input ws =
        "Error executing tool " ++ String.mk [squote] ++ pyLower (pyStrip a) ++
          String.mk [squote] ++ ": " ++ m) := by
  constructor
  · intro h
    simp only [execute_tool]
    rw [if_pos h]
  · intro m h1 h2
    simp only [execute_tool]
    rw [if_neg (fun hn => hn h1), h2]

/-- Claim C7 witness: the unknown-tool message and the rendered exception. -/
theorem execute_tool_total_and_error_messages_witness :
    execute_tool (fun _ _ => Outcome.ok "") "Bogus " [] none =
      "Error: Tool " ++ String.mk [squote] ++ "bogus" ++ String.mk [squote] ++
        " not found. Available tools: web_search, terminal, file_editor, finish" ∧
    execute_tool (fun _ _ => Outcome.exc "boom") "terminal"
        [("command", JVal.str "ls")] (some "/ws") =
      "Error executing tool " ++ String.mk [squote] ++ "terminal" ++
        String.mk [squote] ++ ": boom" := by
  constructor
  · exact (execute_tool_total_and_error_messages (fun _ _ => Outcome.ok "")
      "Bogus " [] none).1 (by decide)
  · exact (execute_tool_total_and_error_messages (fun _ _ => Outcome.exc "boom")
      "terminal" [("command", JVal.str "ls")] (some "/ws")).2 "boom" (by decide) rfl

/- ===== C9 ===== -/

theorem dictInsert_append (m : List (String × JVal)) (k : String) (v : JVal)
    (h : ∀ p ∈ m, p.1 ≠ k) : dictInsert m k v = m ++ [(k, v)] := by
  unfold dictInsert
  rw [if_neg]
  intro hx
  rw [List.any_eq_true] at hx
  obtain ⟨p, hp, he⟩ := hx
  exact h p hp (by simpa using he)

theorem normLoop_append (amap : List (String × String)) :
    ∀ (input acc : List (String × JVal)),
      (∀ p ∈ input,
        (if p.1 = "cwd" then "cwd"
         else (aliasGet amap (pyLower p.1)).getD p.1) = p.1) →
      (((acc ++ input).map Prod.fst).Nodup) →
      normLoop amap acc input = acc ++ input := by
  intro input
  induction input with
  | nil => intro acc _ _; simp [normLoop]
  | cons kv rest ih =>
    intro acc h hN
    obtain ⟨k, v⟩ := kv
    have hk := h (k, v) (List.mem_cons_self _ _)
    have hkacc : ∀ p ∈ acc, p.1 ≠ k := by
      intro p hp he
      have hN2 := hN
      rw [List.map_append, List.nodup_append] at hN2
      exact hN2.2.2 (List.mem_map_of_mem Prod.fst hp) (by simp [he])
    have hins : dictInsert acc k v = acc ++ [(k, v)] :=
      dictInsert_append acc k v hkacc
    have hrest : ∀ p ∈ rest,
        (if p.1 = "cwd" then "cwd"
         else (aliasGet amap (pyLower p.1)).getD p.1) = p.1 :=
      fun p hp => h p (List.mem_cons_of_mem _ hp)
    have hNrest : (((acc ++ [(k, v)]) ++ rest).map Prod.fst).Nodup := by
      simpa [List.append_assoc] using hN
    by_cases hc : k = "cwd"
    · subst hc
      rw [normLoop, if_pos rfl, hins]
      rw [ih (acc ++ [("cwd", v)]) hrest hNrest]
      simp
    · rw [normLoop, if_neg hc]
      have hkk : (aliasGet amap (pyLower k)).getD k = k := by
        have h2 := hk
        rw [if_neg hc] at h2
        exact h2
      rw [hkk, hins]
      rw [ih (acc ++ [(k, v)]) hrest hNrest]
      simp

theorem c9_alias_case (action : String) (amap : List (String × String))
    (input : List (String × JVal))
    (hfind : (TOOL_ARG_MAP.find? (fun p => p.1 = action)).map (fun p => p.2) =
      some amap)
    (hkeys : ∀ p ∈ input, aliasGet amap (pyLower p.1) = none)
    (hnoraw : ∀ p ∈ input, p.1 ≠ "raw")
    (hN : (input.map Prod.fst).Nodup) :
    _normalize_args action input = input := by
  have hany : input.any (fun p => p.1 = "raw") = false := by
    rw [List.any_eq_false]
    intro p hp
    simpa using hnoraw p hp
  unfold _normalize_args
  rw [if_neg (by simp [hany])]
  unfold normalizeAlias
  rw [hfind]
  have := normLoop_append amap input []
    (fun p hp => by
      by_cases hc : p.1 = "cwd"
      · rw [if_pos hc, hc]
      · rw [if_neg hc, hkeys p hp]
        rfl)
    (by simpa using hN)
  simpa using this

/-- Claim C9: the Action Normalizer is the identity on canonical input —
for each canonical tool and any argument dict whose keys are that tool's
canonical argument keys, `_normalize_args` returns the dict unchanged, and
in particular applying it again to its own output changes nothing. -/
theorem normalize_args_idempotent_on_canonical (action : String)
    (input : List (String × JVal)) (hA : action ∈ toolNames)
    (hK : ∀ p ∈ input, p.1 ∈ canonicalKeys action)
    (hN : (input.map Prod.fst).Nodup) :
    _normalize_args action input = input ∧
    _normalize_args action (_normalize_args action input) =
      _normalize_args action input := by
  have hA2 : action = "web_search" ∨ action = "terminal" ∨
      action = "file_editor" ∨ action = "finish" := by
    simpa [toolNames] using hA
  have key : _normalize_args action input = input := by
    rcases hA2 with h | h | h | h <;> subst h
    · refine c9_alias_case _ _ input rfl ?_ ?_ hN
      · intro p hp
        have hm : p.1 = "query" := by
          simpa [canonicalKeys] using hK p hp
        rw [hm]; rfl
      · intro p hp
        have hm : p.1 = "query" := by
          simpa [canonicalKeys] using hK p hp
        rw [hm]; decide
    · refine c9_alias_case _ _ input rfl ?_ ?_ hN
      · intro p hp
        have hm : p.1 = "command" := by
          simpa [canonicalKeys] using hK p hp
        rw [hm]; rfl
      · intro p hp
        have hm : p.1 = "command" := by
          simpa [canonicalKeys] using hK p hp
        rw [hm]; decide
    · refine c9_alias_case _ _ input rfl ?_ ?_ hN
      · intro p hp
        have hm : p.1 = "action" ∨ p.1 = "path" ∨ p.1 = "content" := by
          simpa [canonicalKeys] using hK p hp
        rcases hm with hm | hm | hm <;> rw [hm] <;> rfl
      · intro p hp
        have hm : p.1 = "action" ∨ p.1 = "path" ∨ p.1 = "content" := by
          simpa [canonicalKeys] using hK p hp
        rcases hm with hm | hm | hm <;> rw [hm] <;> decide
    · refine c9_alias_case _ _ input rfl ?_ ?_ hN
      · intro p hp
        have hm : p.1 = "answer" := by
          simpa [canonicalKeys] using hK p hp
        rw [hm]; rfl
      · intro p hp
        have hm : p.1 = "answer" := by
          simpa [canonicalKeys] using hK p hp
        rw [hm]; decide
  refine ⟨key, ?_⟩
  rw [key]
  exact key

/-- Claim C9 witness: canonical file_editor arguments pass through both
applications unchanged. -/
theorem normalize_args_idempotent_on_canonical_witness :
    _normalize_args "file_editor"
      [("action", JVal.str "write"), ("path", JVal.str "a.py"),
       ("content", JVal.str "x")] =
      [("action", JVal.str "write"), ("path", JVal.str "a.py"),
       ("content", JVal.str "x")] ∧
    _normalize_args "file_editor"
      (_normalize_args "file_editor"
        [("action", JVal.str "write"), ("path", JVal.str "a.py"),
         ("content", JVal.str "x")]) =
      _normalize_args "file_editor"
        [("action", JVal.str "write"), ("path", JVal.str "a.py"),
         ("content", JVal.str "x")] :=
  normalize_args_idempotent_on_canonical "file_editor"
    [("action", JVal.str "write"), ("path", JVal.str "a.py"),
     ("content", JVal.str "x")]
    (by decide) (by decide) (by decide)

/- ===== C8 ===== -/

set_option maxRecDepth 40000 in
/-- Claim C8 (counterexample): on the exact text of the claim
(`Thought/Action/Action Input` with a trailing-comma JSON input), the
cascade used by `call_llm` yields a `finish` action, not a `file_editor`
action: there is no Thought/Action/Action Input strategy in the code, and
the JSON strategy drops the object because its `action` field is "write",
which resolves to no canonical tool. -/
theorem trailing_comma_react_counterexample :
    (call_llm_parse reactSample "x" 1 [] "/ws").map ParsedAction.action =
      some "finish" ∧ ("finish" : String) ≠ "file_editor" :=
  ⟨by rfl, by decide⟩

set_option maxRecDepth 40000 in
/-- Claim C8 (amended): the forgiving repair does recover the embedded JSON
object — the brace span fails to parse as is, and parses after the
trailing-comma repair to `{action: "write", path: "a.py",
content: "print(1)"}` — but "write" fails tool-name resolution, so
`_try_parse_json_format` yields nothing and the cascade falls through to
the default strategy: a `finish` action whose answer is the entire raw
text. -/
theorem trailing_comma_react_amended :
    braceSpan (pyStrip reactSample) =
      some "\x7b\"action\":\"write\",\"path\":\"a.py\",\"content\":\"print(1)\",\x7d" ∧
    jsonLoads
      "\x7b\"action\":\"write\",\"path\":\"a.py\",\"content\":\"print(1)\",\x7d" =
      none ∧
    jsonLoads (repairJson
      "\x7b\"action\":\"write\",\"path\":\"a.py\",\"content\":\"print(1)\",\x7d") =
      some (.obj [("action", .str "write"), ("path", .str "a.py"),
        ("content", .str "print(1)")]) ∧
    call_llm_parse reactSample "x" 1 [] "/ws" =
      some ⟨.str "Menganalisis respons dan memberikan jawaban", "finish",
        .obj [("answer", .str reactSample)]⟩ :=
  ⟨by rfl, by rfl, by rfl, by rfl⟩
